import Mathlib

/-!
# Verification of the kiwi-sports live-score gateway core

Shallow embedding of the resilience-and-normalization core of the
kiwi-sports repository (a Deno/Cloudflare-Worker live-score API):

* `src/types.ts` — match data model, status classifier `mapEspnStatus`,
  team filter `filterByTeam`;
* `src/rateLimit.ts` — token-bucket `RateLimiter`;
* `src/providers/sportsmonk.ts` — `getCachedTeams` TTL cache with
  stale-on-failure fallback;
* `src/providers/cricinfo.ts` — RSS title parser `parseMatchFromRSSItem`;
* the scoreboard handler's team-filter step from the main worker module.

JavaScript numbers are modelled as `ℚ` (the code performs only
`+ - * / min` comparisons on them), strings as Lean `String` with ASCII
semantics for `toLowerCase`, `trim`, `\b`, `\s`, `\w` (which is all the
repository's data exercises), and fallible platform effects (HTTP fetch,
KV store, `Date` parsing) as explicit parameters.

The TypeScript field `abbrev` is spelled `abbr` here (`abbrev` is a Lean
keyword), and `matches` parameters are spelled `ms` for the same reason.
-/

set_option autoImplicit false

namespace KiwiSports

/-! ## Data model (`src/types.ts`) -/

/-- `type MatchStatus = 'upcoming' | 'ongoing' | 'done'` -/
inductive MatchStatus where
  | upcoming
  | ongoing
  | done
deriving DecidableEq, Repr

/-- `interface Team` (types.ts): optional fields become `Option`.
Source field `abbrev` is `abbr` here. -/
structure Team where
  id : String
  name : String
  abbr : String
  logo : Option String := none
  score : Option String := none
  turn : Option Bool := none
deriving DecidableEq, Repr

/-- `interface Match` (types.ts). -/
structure SMatch where
  id : String
  home : Team
  away : Team
  status : MatchStatus
  statusDetail : String
  time : Option String := none
  venue : Option String := none
  broadcast : Option String := none
  league : Option String := none
deriving DecidableEq, Repr

/-! ## String primitives

All JavaScript string operations used by the repository are modelled
over the character list `String.data` with their ASCII semantics, so
that every definition reduces inside the kernel.  `includes` is
contiguous substring containment, related to `List.IsInfix` below. -/

/-- ASCII `String.prototype.toLowerCase` on one character. -/
def lowerChar (c : Char) : Char :=
  if 'A' ≤ c && c ≤ 'Z' then Char.ofNat (c.toNat + 32) else c

/-- ASCII `String.prototype.toUpperCase` on one character. -/
def upperChar (c : Char) : Char :=
  if 'a' ≤ c && c ≤ 'z' then Char.ofNat (c.toNat - 32) else c

/-- `toLowerCase` on a character list. -/
def jsToLowerL (cs : List Char) : List Char := cs.map lowerChar

/-- `toUpperCase` on a character list. -/
def jsToUpperL (cs : List Char) : List Char := cs.map upperChar

/-- JS `s.toLowerCase()`. -/
def jsToLower (s : String) : String := String.mk (jsToLowerL s.data)

/-- JS `s.toUpperCase()`. -/
def jsToUpper (s : String) : String := String.mk (jsToUpperL s.data)

/-- JS whitespace for `trim` / `\s` (ASCII part). -/
def isSpaceChar (c : Char) : Bool :=
  c == ' ' || c == '\t' || c == '\n' || c == '\r'

/-- `trim` on a character list: drop whitespace from both ends. -/
def jsTrimL (cs : List Char) : List Char :=
  ((cs.dropWhile isSpaceChar).reverse.dropWhile isSpaceChar).reverse

/-- JS `s.trim()`. -/
def jsTrim (s : String) : String := String.mk (jsTrimL s.data)

/-- JS `s.split(sep)` for a one-character separator. -/
def splitCharSep (sep : Char) : List Char → List (List Char)
  | [] => [[]]
  | c :: rest =>
    if c == sep then [] :: splitCharSep sep rest
    else
      match splitCharSep sep rest with
      | [] => [[c]]
      | p :: ps => (c :: p) :: ps

/-- Scanner for contiguous containment of `needle` in a character list. -/
def containsAux (needle : List Char) : List Char → Bool
  | [] => needle.isEmpty
  | c :: rest => needle.isPrefixOf (c :: rest) || containsAux needle rest

/-- JS `hay.includes(needle)`. -/
def sContains (hay needle : String) : Bool :=
  containsAux needle.data hay.data

/-- Declarative substring containment: `needle` occurs contiguously in
`hay`. -/
def SubstrOf (needle hay : String) : Prop :=
  needle.data <:+: hay.data

/-! ## Status classifier (`mapEspnStatus`, types.ts lines 211–225) -/

/-- `mapEspnStatus` from `src/types.ts` (lowercase the input, then test
substring containment in the source's order): the first `if` condition,
any of final/end/ft/post. -/
def doneCond (status : String) : Bool :=
  sContains status "final" || sContains status "end" ||
    sContains status "ft" || sContains status "post"

/-- The second `if` condition of `mapEspnStatus`. -/
def ongoingCond (status : String) : Bool :=
  sContains status "progress" || sContains status "live" ||
    sContains status "halftime" || sContains status "in "

/-- `mapEspnStatus` continued: the branch structure. -/
def mapEspnStatus (espnStatus : String) : MatchStatus :=
  let status := jsToLower espnStatus
  if doneCond status then .done
  else if ongoingCond status then .ongoing
  else .upcoming

/-! ## Whole-word regex test (`filterByTeam`, types.ts lines 239–265)

`filterByTeam` builds `new RegExp('\\b' + escaped + '\\b', 'i')` from each
(already lowercased, regex-escaped hence literal) token and runs `.test`
on the four team fields.  We model the JS regex primitives over ASCII:
`\w` is `[A-Za-z0-9_]`, `\b` holds at a position iff exactly one of the
adjacent characters (string edges counting as non-word) is a word
character, and the `i` flag is modelled by lowercasing both sides. -/

/-- JS regex word character `\w` (ASCII). -/
def isWordChar (c : Char) : Bool :=
  c.isAlphanum || c == '_'

/-- Wordness of an optional character; a string edge is non-word. -/
def optWord : Option Char → Bool
  | none => false
  | some c => isWordChar c

/-- `\b` between two (optional) adjacent characters. -/
def wordBoundary (a b : Option Char) : Bool :=
  optWord a != optWord b

/-- Does `\b needle \b` match exactly at the start of `hay`, where
`prev` is the character immediately before this position (if any)?
Since the token is a regex-escaped literal, matching at a position is
plain prefix equality plus the two boundary assertions. -/
def hereMatch (needle hay : List Char) (prev : Option Char) : Bool :=
  needle.isPrefixOf hay &&
    wordBoundary prev needle.head? &&
    wordBoundary needle.getLast? hay[needle.length]?

/-- Scan every start position of `hay` (leftmost first), threading the
previous character, exactly as the regex engine's unanchored `.test`. -/
def scanMatch (needle : List Char) : Option Char → List Char → Bool
  | prev, [] => hereMatch needle [] prev
  | prev, c :: rest => hereMatch needle (c :: rest) prev || scanMatch needle (some c) rest

/-- Model of `new RegExp('\\b' + esc(search) + '\\b', 'i').test(hay)`. -/
def regexWholeWordTest (search hay : String) : Bool :=
  scanMatch (jsToLowerL search.data) none (jsToLowerL hay.data)

/-- The character preceding the current scan position: the last element
of the consumed prefix, or the outer context `prev` if none was
consumed. -/
def lastOr (prev : Option Char) : List Char → Option Char
  | [] => prev
  | c :: rest => lastOr (some c) rest

/-- Declarative whole-word occurrence (the spec's reading): after
lowercasing both sides, the token appears contiguously with a word
boundary on each side. -/
def WholeWordOccurs (search hay : String) : Prop :=
  ∃ pre post, jsToLowerL hay.data = pre ++ jsToLowerL search.data ++ post ∧
    wordBoundary pre.getLast? (jsToLowerL search.data).head? = true ∧
    wordBoundary (jsToLowerL search.data).getLast? post.head? = true

/-! ## Team filter (`filterByTeam`, types.ts lines 239–265) -/

/-- Token list: `teamSearch.split(',').map(t => t.trim().toLowerCase())
.filter(t => t.length > 0)`. -/
def filterTokens (teamSearch : String) : List String :=
  (((splitCharSep ',' teamSearch.data).map String.mk).map
      (fun t => jsToLower (jsTrim t))).filter
    (fun t => t.length > 0)

/-- The per-match predicate inside `filterByTeam`: some token passes the
whole-word regex test on home name, home abbrev, away name, or away
abbrev (source field order). -/
def teamMatchPred (teams : List String) (m : SMatch) : Bool :=
  teams.any (fun search =>
    regexWholeWordTest search m.home.name ||
    regexWholeWordTest search m.home.abbr ||
    regexWholeWordTest search m.away.name ||
    regexWholeWordTest search m.away.abbr)

/-- `filterByTeam` from `src/types.ts`. -/
def filterByTeam (ms : List SMatch) (teamSearch : String) : List SMatch :=
  let teams := filterTokens teamSearch
  if teams.length = 0 then ms
  else ms.filter (teamMatchPred teams)

/-! ## Status filter (`filterByStatus`, types.ts lines 230–233) -/

/-- `filterByStatus` from `src/types.ts` (`'all'` is encoded as `none`). -/
def filterByStatus (ms : List SMatch) (status : Option MatchStatus) : List SMatch :=
  match status with
  | none => ms
  | some s => ms.filter (fun m => m.status = s)

/-! ## Rate limiter (`src/rateLimit.ts`)

Timestamps (`Date.now()`, milliseconds) and token counts are rationals.
The `Map<string, Bucket>` is an association list in insertion order with
`Map.get`/`Map.set` semantics. -/

/-- `interface RateLimitConfig` (rateLimit.ts lines 6–10). -/
structure RateLimitConfig where
  limit : ℚ
  burst : ℚ
  interval : ℚ
deriving DecidableEq, Repr

/-- `Partial<RateLimitConfig>`: each field may be absent. -/
structure PartialRateLimitConfig where
  limit : Option ℚ := none
  burst : Option ℚ := none
  interval : Option ℚ := none
deriving DecidableEq, Repr

/-- JS `x || d` for a numeric config field: absent or `0` (falsy) falls
back to the default. -/
def orDefault (v : Option ℚ) (d : ℚ) : ℚ :=
  match v with
  | none => d
  | some x => if x = 0 then d else x

/-- The `RateLimiter` constructor (rateLimit.ts lines 23–30):
`limit: config.limit || 10`, `burst: config.burst || 5`,
`interval: config.interval || 60`. -/
def mkRateLimitConfig (config : PartialRateLimitConfig) : RateLimitConfig :=
  { limit := orDefault config.limit 10
    burst := orDefault config.burst 5
    interval := orDefault config.interval 60 }

/-- The module-level `rateLimiter` instance (rateLimit.ts lines 94–98):
`new RateLimiter({ limit: 60, burst: 10, interval: 60 })`. -/
def rateLimiterConfig : RateLimitConfig :=
  mkRateLimitConfig { limit := some 60, burst := some 10, interval := some 60 }

/-- `interface Bucket` (rateLimit.ts lines 12–15). -/
structure Bucket where
  tokens : ℚ
  lastRefill : ℚ
deriving DecidableEq, Repr

/-- The limiter's mutable state: the bucket map plus `lastCleanup`. -/
structure RateLimiterState where
  buckets : List (String × Bucket)
  lastCleanup : ℚ
deriving DecidableEq, Repr

/-- `Map.get`. -/
def mapGet (m : List (String × Bucket)) (k : String) : Option Bucket :=
  (m.find? (fun p => p.1 == k)).map Prod.snd

/-- `Map.set`: overwrite in place or append. -/
def mapSet (m : List (String × Bucket)) (k : String) (v : Bucket) :
    List (String × Bucket) :=
  if m.any (fun p => p.1 == k) then
    m.map (fun p => if p.1 == k then (k, v) else p)
  else m ++ [(k, v)]

/-- `cleanup` (rateLimit.ts lines 82–90): delete buckets idle for more
than 5 minutes. -/
def cleanup (now : ℚ) (buckets : List (String × Bucket)) : List (String × Bucket) :=
  buckets.filter (fun p => !(decide (now - p.2.lastRefill > 300000)))

/-- The decision record `{ allowed: boolean, reason?: string }`. -/
structure CheckResult where
  allowed : Bool
  reason : Option String := none
deriving DecidableEq, Repr

/-- `const blockedAgents = ['curl', 'python-requests', 'postman']`. -/
def blockedAgents : List String := ["curl", "python-requests", "postman"]

/-- Rule (1) trigger: `!userAgent || userAgent.trim() === ''`
(`null` and the falsy empty string both count as missing). -/
def uaIsMissing : Option String → Bool
  | none => true
  | some ua => jsTrim ua == ""

/-- Rule (2) trigger: the lowercased user agent contains a blocklist
signature. -/
def uaIsBlocked : Option String → Bool
  | none => false
  | some ua => blockedAgents.any (fun agent => sContains (jsToLower ua) agent)

/-- The opportunistic sweep at the top of `check` (lines 38–42): at most
once per 60 s of wall time, sweep idle buckets and stamp `lastCleanup`. -/
def sweepState (st : RateLimiterState) (now : ℚ) : RateLimiterState :=
  if now - st.lastCleanup > 60000 then
    { buckets := cleanup now st.buckets, lastCleanup := now }
  else st

/-- The token-bucket refill-and-consume step (lines 57–79) on the
already-swept state. -/
def tokenBucketStep (config : RateLimitConfig) (st : RateLimiterState)
    (now : ℚ) (ip : String) : CheckResult × RateLimiterState :=
  let bucket := (mapGet st.buckets ip).getD { tokens := config.burst, lastRefill := now }
  let timePassed := (now - bucket.lastRefill) / 1000
  let refillRate := config.limit / config.interval
  let refilledTokens := timePassed * refillRate
  let tokens := min config.burst (bucket.tokens + refilledTokens)
  if tokens ≥ 1 then
    ({ allowed := true },
      { st with buckets := mapSet st.buckets ip { tokens := tokens - 1, lastRefill := now } })
  else
    ({ allowed := false, reason := some "Rate limit exceeded" },
      { st with buckets := mapSet st.buckets ip { tokens := tokens, lastRefill := now } })

/-- `RateLimiter.check` (rateLimit.ts lines 36–80), as a pure transition
on the limiter state.  The body mirrors the source: lazy cleanup, then
User-Agent validation, then blocklist, then the token bucket. -/
def check (config : RateLimitConfig) (st : RateLimiterState) (now : ℚ)
    (ip : String) (userAgent : Option String) : CheckResult × RateLimiterState :=
  -- Lazy cleanup to avoid global timer
  let st' :=
    if now - st.lastCleanup > 60000 then
      { buckets := cleanup now st.buckets, lastCleanup := now }
    else st
  -- 1. User-Agent validation
  match userAgent with
  | none => ({ allowed := false, reason := some "Missing User-Agent header" }, st')
  | some ua =>
    if jsTrim ua == "" then
      ({ allowed := false, reason := some "Missing User-Agent header" }, st')
    else if blockedAgents.any (fun agent => sContains (jsToLower ua) agent) then
      ({ allowed := false, reason := some "Automated client blocked" }, st')
    else
      -- 2. Token bucket rate limiting
      let bucket := (mapGet st'.buckets ip).getD { tokens := config.burst, lastRefill := now }
      let timePassed := (now - bucket.lastRefill) / 1000
      let refillRate := config.limit / config.interval
      let refilledTokens := timePassed * refillRate
      let tokens := min config.burst (bucket.tokens + refilledTokens)
      if tokens ≥ 1 then
        ({ allowed := true },
          { st' with buckets := mapSet st'.buckets ip { tokens := tokens - 1, lastRefill := now } })
      else
        ({ allowed := false, reason := some "Rate limit exceeded" },
          { st' with buckets := mapSet st'.buckets ip { tokens := tokens, lastRefill := now } })

/-- Fresh limiter state (`new Map()`, `lastCleanup = Date.now()`). -/
def initState (t0 : ℚ) : RateLimiterState :=
  { buckets := [], lastCleanup := t0 }

/-- Run a sequence of `check` calls; each step supplies the wall-clock
time of the call, the client key and the user agent. -/
def runChecks (config : RateLimitConfig) :
    RateLimiterState → List (ℚ × String × Option String) → RateLimiterState
  | st, [] => st
  | st, (now, ip, ua) :: rest => runChecks config (check config st now ip ua).2 rest

/-! ## SportsMonk team cache (`src/providers/sportsmonk.ts`)

`getCachedTeams` is pure in: whether the API key and the KV store are
configured, the current KV record, `Date.now()`, and the outcome the
paginated upstream fetch would have (success with a team list, or a
thrown error).  The embedding returns the produced value (or the
propagated exception), the number of upstream fetch attempts, and the KV
record after the call. -/

/-- `CACHE_TTL_MS = 7 * 24 * 60 * 60 * 1000`. -/
def CACHE_TTL_MS : ℚ := 7 * 24 * 60 * 60 * 1000

/-- `interface SportsMonkTeam`. -/
structure SportsMonkTeam where
  id : ℤ
  name : String
  code : String
  image_path : String
  country_id : ℤ
  national_team : Bool
  updated_at : String
deriving DecidableEq, Repr

/-- `interface CachedTeams`. -/
structure CachedTeams where
  teams : List SportsMonkTeam
  cachedAt : ℚ
deriving DecidableEq, Repr

/-- `interface NormalizedTeam` (source field `abbrev` spelled `abbr`). -/
structure NormalizedTeam where
  id : String
  name : String
  abbr : String
  logo : String
deriving DecidableEq, Repr

/-- `normalizeTeams` (sportsmonk.ts lines 233–246): keep teams whose
`national_team` flag matches the league category, project to the output
shape (`code || name.substring(0,3).toUpperCase()`), sort by name
(`localeCompare` modelled as code-point order). -/
def normalizeTeams (teams : List SportsMonkTeam) (league : String) : List NormalizedTeam :=
  let isNationalTeam := league != "other"
  ((teams.filter (fun t => t.national_team == isNationalTeam)).map (fun team =>
    { id := toString team.id
      name := team.name
      abbr := if team.code = "" then jsToUpper (String.mk (team.name.data.take 3)) else team.code
      logo := team.image_path })).mergeSort (fun a b => a.name ≤ b.name)

/-- `getFallbackTeams` (sportsmonk.ts lines 251–272). -/
def getFallbackTeams (league : String) : List NormalizedTeam :=
  if league = "other" then []
  else
    [ { id := "ind", name := "India", abbr := "IND", logo := "https://flagcdn.com/w40/in.png" }
    , { id := "aus", name := "Australia", abbr := "AUS", logo := "https://flagcdn.com/w40/au.png" }
    , { id := "eng", name := "England", abbr := "ENG", logo := "https://flagcdn.com/w40/gb-eng.png" }
    , { id := "pak", name := "Pakistan", abbr := "PAK", logo := "https://flagcdn.com/w40/pk.png" }
    , { id := "sa", name := "South Africa", abbr := "SA", logo := "https://flagcdn.com/w40/za.png" }
    , { id := "nz", name := "New Zealand", abbr := "NZ", logo := "https://flagcdn.com/w40/nz.png" }
    , { id := "sl", name := "Sri Lanka", abbr := "SL", logo := "https://flagcdn.com/w40/lk.png" }
    , { id := "wi", name := "West Indies", abbr := "WI", logo := "https://flagcdn.com/w40/jm.png" }
    , { id := "ban", name := "Bangladesh", abbr := "BAN", logo := "https://flagcdn.com/w40/bd.png" }
    , { id := "afg", name := "Afghanistan", abbr := "AFG", logo := "https://flagcdn.com/w40/af.png" }
    , { id := "ire", name := "Ireland", abbr := "IRE", logo := "https://flagcdn.com/w40/ie.png" }
    , { id := "zim", name := "Zimbabwe", abbr := "ZIM", logo := "https://flagcdn.com/w40/zw.png" } ]

/-- Result of one `getCachedTeams` call: the returned list (or the
propagated exception), the number of upstream fetch attempts and the
cache record afterwards. -/
structure GetCachedTeamsResult where
  result : Except Unit (List NormalizedTeam)
  upstreamCalls : Nat
  cacheAfter : Option CachedTeams
deriving Repr

/-- `getCachedTeams` (sportsmonk.ts lines 102–163).  Branches in source
order: missing API key ⇒ fallback, no network; missing KV ⇒ direct fetch
(a thrown fetch propagates — that call sits outside the `try`); else
fresh cache ⇒ cached data, no network; else fetch, on success write the
cache, on failure return the (stale) cache record if any, else the
static fallback. -/
def getCachedTeams (hasApiKey hasCacheStore : Bool) (cache : Option CachedTeams)
    (now : ℚ) (fetchResult : Except Unit (List SportsMonkTeam)) (league : String) :
    GetCachedTeamsResult :=
  if !hasApiKey then
    { result := .ok (getFallbackTeams league), upstreamCalls := 0, cacheAfter := cache }
  else if !hasCacheStore then
    match fetchResult with
    | .ok teams =>
        { result := .ok (normalizeTeams teams league), upstreamCalls := 1, cacheAfter := cache }
    | .error e =>
        { result := .error e, upstreamCalls := 1, cacheAfter := cache }
  else
    -- body of the try/catch
    let refetch : GetCachedTeamsResult :=
      match fetchResult with
      | .ok freshTeams =>
          { result := .ok (normalizeTeams freshTeams league)
            upstreamCalls := 1
            cacheAfter := some { teams := freshTeams, cachedAt := now } }
      | .error _ =>
          -- catch: try to return stale cache if available
          match cache with
          | some staleCache =>
              { result := .ok (normalizeTeams staleCache.teams league)
                upstreamCalls := 1, cacheAfter := cache }
          | none =>
              { result := .ok (getFallbackTeams league)
                upstreamCalls := 1, cacheAfter := cache }
    match cache with
    | some cachedData =>
        if now - cachedData.cachedAt < CACHE_TTL_MS then
          { result := .ok (normalizeTeams cachedData.teams league)
            upstreamCalls := 0, cacheAfter := cache }
        else refetch
    | none => refetch

/-! ## Scoreboard handler team-filter step (main worker module)

The `/api/scoreboard` route applies `filterByTeam` and, for cricket
only, degrades an empty filter result to the first unfiltered match. -/

/-- The team-filter step of the scoreboard handler (`if (team) { ... }`
block; the empty team parameter is falsy and skips filtering). -/
def scoreboardTeamStep (sportSlug : String) (ms : List SMatch) (team : String) :
    List SMatch :=
  if team ≠ "" then
    let filteredMatches := filterByTeam ms team
    if sportSlug == "cricket" && filteredMatches.isEmpty && !ms.isEmpty then
      ms.take 1   -- `matches = [matches[0]]`
    else filteredMatches
  else ms

/-! ## Cricinfo RSS parser (`src/providers/cricinfo.ts`)

`parseMatchFromRSSItem` is regex scanning over the raw `<item>` text.
Each source regex is compiled here into an equivalent explicit scanner
(leftmost start position, lazy `(.+?)` by increasing length, greedy
character-class runs — which never need backtracking against the
disjoint follow-up classes, except the optional `(?:\/\d+)?` group whose
two alternatives are tried greedily-first). -/

/-- `decodeHtmlEntities` pass 1: `replace(/&amp;/g, '&')`. -/
def replaceAmp : List Char → List Char
  | '&' :: 'a' :: 'm' :: 'p' :: ';' :: rest => '&' :: replaceAmp rest
  | c :: rest => c :: replaceAmp rest
  | [] => []

/-- Pass 2: `replace(/&lt;/g, '<')`. -/
def replaceLt : List Char → List Char
  | '&' :: 'l' :: 't' :: ';' :: rest => '<' :: replaceLt rest
  | c :: rest => c :: replaceLt rest
  | [] => []

/-- Pass 3: `replace(/&gt;/g, '>')`. -/
def replaceGt : List Char → List Char
  | '&' :: 'g' :: 't' :: ';' :: rest => '>' :: replaceGt rest
  | c :: rest => c :: replaceGt rest
  | [] => []

/-- Pass 4: `replace(/&quot;/g, '"')`. -/
def replaceQuot : List Char → List Char
  | '&' :: 'q' :: 'u' :: 'o' :: 't' :: ';' :: rest => '"' :: replaceQuot rest
  | c :: rest => c :: replaceQuot rest
  | [] => []

/-- Pass 5: `replace(/&#39;/g, "'")`. -/
def replaceApos : List Char → List Char
  | '&' :: '#' :: '3' :: '9' :: ';' :: rest => '\'' :: replaceApos rest
  | c :: rest => c :: replaceApos rest
  | [] => []

/-- `decodeHtmlEntities` (cricinfo.ts lines 109–116): the five global
replaces in source order. -/
def decodeHtmlEntities (s : String) : String :=
  String.mk (replaceApos (replaceQuot (replaceGt (replaceLt (replaceAmp s.data)))))

/-- `replace(/\/10/g, '')` (hide all-out innings). -/
def replaceSlash10 : List Char → List Char
  | '/' :: '1' :: '0' :: rest => replaceSlash10 rest
  | c :: rest => c :: replaceSlash10 rest
  | [] => []

/-- `formatScore` (cricinfo.ts lines 121–124). -/
def formatScore (score : String) : String :=
  if score = "" then score else String.mk (replaceSlash10 score.data)

/-- `parseScore` (cricinfo.ts lines 87–90): the falsy empty string maps
to `undefined`. -/
def parseScore (scoreStr : String) : Option String :=
  if scoreStr = "" then none else some scoreStr

/-- `str.replace('*', '')` — a string pattern replaces only the first
occurrence. -/
def removeFirstStar : List Char → List Char
  | '*' :: rest => rest
  | c :: rest => c :: removeFirstStar rest
  | [] => []

/-- JS `trimmed.split(/\s+/)`: split on maximal whitespace runs (with a
leading/trailing empty part when the string starts/ends with
whitespace). -/
def splitWsL : List Char → List (List Char)
  | [] => [[]]
  | c :: rest =>
    let r := splitWsL rest
    if isSpaceChar c then
      match rest with
      | d :: _ => if isSpaceChar d then r else [] :: r
      | [] => [] :: r
    else
      match r with
      | [] => [[c]]
      | p :: ps => (c :: p) :: ps

/-- `getAbbrev` (cricinfo.ts lines 95–100): `'TBD'` for the falsy empty
name; single-word names take the first three characters of the original
string uppercased; multi-word names take initials, truncated to three,
uppercased. -/
def getAbbrev (name : String) : String :=
  if name = "" then "TBD"
  else
    let words := splitWsL (jsTrimL name.data)
    if words.length = 1 then jsToUpper (String.mk (name.data.take 3))
    else jsToUpper (String.mk (((words.map (fun w => w.take 1)).flatten).take 3))

/-- `TEAM_FLAGS` (cricinfo.ts lines 28–56), in source (insertion)
order. -/
def TEAM_FLAGS : List (String × String) :=
  [ ("Australia", "https://flagcdn.com/w40/au.png")
  , ("England", "https://flagcdn.com/w40/gb-eng.png")
  , ("India", "https://flagcdn.com/w40/in.png")
  , ("Pakistan", "https://flagcdn.com/w40/pk.png")
  , ("South Africa", "https://flagcdn.com/w40/za.png")
  , ("New Zealand", "https://flagcdn.com/w40/nz.png")
  , ("Sri Lanka", "https://flagcdn.com/w40/lk.png")
  , ("West Indies", "https://flagcdn.com/w40/jm.png")
  , ("Bangladesh", "https://flagcdn.com/w40/bd.png")
  , ("Afghanistan", "https://flagcdn.com/w40/af.png")
  , ("Ireland", "https://flagcdn.com/w40/ie.png")
  , ("Zimbabwe", "https://flagcdn.com/w40/zw.png")
  , ("Scotland", "https://flagcdn.com/w40/gb-sct.png")
  , ("Netherlands", "https://flagcdn.com/w40/nl.png")
  , ("Namibia", "https://flagcdn.com/w40/na.png")
  , ("UAE", "https://flagcdn.com/w40/ae.png")
  , ("United Arab Emirates", "https://flagcdn.com/w40/ae.png")
  , ("Nepal", "https://flagcdn.com/w40/np.png")
  , ("Oman", "https://flagcdn.com/w40/om.png")
  , ("USA", "https://flagcdn.com/w40/us.png")
  , ("United States", "https://flagcdn.com/w40/us.png")
  , ("Canada", "https://flagcdn.com/w40/ca.png")
  , ("Kenya", "https://flagcdn.com/w40/ke.png")
  , ("Hong Kong", "https://flagcdn.com/w40/hk.png")
  , ("Papua New Guinea", "https://flagcdn.com/w40/pg.png") ]

/-- `getTeamFlag` (cricinfo.ts lines 61–82): exact key first, then the
first key matching as a whole word (case-insensitive) in the name. -/
def getTeamFlag (teamName : String) : Option String :=
  if teamName = "" then none
  else
    let normalizedName := jsTrim teamName
    match (TEAM_FLAGS.find? (fun p => p.1 == normalizedName)).map Prod.snd with
    | some flag => some flag
    | none =>
        (TEAM_FLAGS.find? (fun p => regexWholeWordTest p.1 normalizedName)).map Prod.snd

/-- Candidate parses of `\d+(?:\/\d+)?` at the head of the input, in the
regex engine's preference order (optional group taken first), each with
the remaining input. -/
def numParses (cs : List Char) : List (List Char × List Char) :=
  let ds := cs.takeWhile Char.isDigit
  if ds.isEmpty then []
  else
    let rest := cs.drop ds.length
    match rest with
    | '/' :: r2 =>
        let ds2 := r2.takeWhile Char.isDigit
        if ds2.isEmpty then [(ds, rest)]
        else [(ds ++ '/' :: ds2, r2.drop ds2.length), (ds, rest)]
    | _ => [(ds, rest)]

/-- First alternative that succeeds (regex backtracking order). -/
def firstSome {α β : Type} : List α → (α → Option β) → Option β
  | [], _ => none
  | a :: rest, f =>
    match f a with
    | some b => some b
    | none => firstSome rest f

/-- Tail of the multi-innings regex after the lazy name:
`\s+(\d+(?:\/\d+)?)\s*&\s+(\d+(?:\/\d+)?)\s*$`, returning the two score
captures. -/
def multiTail (cs : List Char) : Option (List Char × List Char) :=
  let ws := cs.takeWhile isSpaceChar
  if ws.isEmpty then none
  else
    firstSome (numParses (cs.drop ws.length)) (fun pr =>
      let r1 := pr.2.drop (pr.2.takeWhile isSpaceChar).length
      match r1 with
      | '&' :: r2 =>
          let ws2 := r2.takeWhile isSpaceChar
          if ws2.isEmpty then none
          else
            firstSome (numParses (r2.drop ws2.length)) (fun pr2 =>
              if (pr2.2.dropWhile isSpaceChar).isEmpty then some (pr.1, pr2.1)
              else none)
      | _ => none)

/-- Tail of the single-score regex after the lazy name:
`\s+(\d+(?:\/\d+)?)$`, returning the score capture. -/
def smTail (cs : List Char) : Option (List Char) :=
  let ws := cs.takeWhile isSpaceChar
  if ws.isEmpty then none
  else
    firstSome (numParses (cs.drop ws.length)) (fun pr =>
      if pr.2.isEmpty then some pr.1 else none)

/-- Lazy `(.+?)` at a fixed start: grow the captured name one character
at a time (never across a line terminator, which `.` does not match) and
try the tail after each growth step. -/
def lazyNameScanAux {β : Type} (tail : List Char → Option β) (acc : List Char) :
    List Char → Option (List Char × β)
  | [] => none
  | c :: rest =>
    if c == '\n' || c == '\r' then none
    else
      match tail rest with
      | some b => some (acc ++ [c], b)
      | none => lazyNameScanAux tail (acc ++ [c]) rest

/-- Unanchored match of `(.+?)<tail>`: leftmost start position wins;
within a start, the shortest name wins. -/
def lazyScan {β : Type} (tail : List Char → Option β) : List Char → Option (List Char × β)
  | [] => none
  | c :: rest =>
    match lazyNameScanAux tail [] (c :: rest) with
    | some r => some r
    | none => lazyScan tail rest

/-- `cleanStr.match(/(.+?)\s+(\d+(?:\/\d+)?)\s*&\s+(\d+(?:\/\d+)?)\s*$/)`
as (name capture, first innings, second innings). -/
def multiInningsMatch (str : String) : Option (String × String × String) :=
  (lazyScan multiTail str.data).map (fun r => (String.mk r.1, String.mk r.2.1, String.mk r.2.2))

/-- `cleanStr.match(/(.+?)\s+(\d+(?:\/\d+)?)$/)` as (name capture,
score). -/
def scoreMatch (str : String) : Option (String × String) :=
  (lazyScan smTail str.data).map (fun r => (String.mk r.1, String.mk r.2))

/-- The record produced by the `parseTeamString` helper. -/
structure ParsedTeamString where
  name : String
  score : String
  isBatting : Bool
deriving DecidableEq, Repr

/-- `parseTeamString` (cricinfo.ts lines 152–191): flag and strip the
`*` marker, try the multi-innings pattern, then the single-score
pattern, else no score. -/
def parseTeamString (str : String) : ParsedTeamString :=
  let isBatting := str.data.contains '*'
  let cleanStr := jsTrim (String.mk (removeFirstStar str.data))
  match multiInningsMatch cleanStr with
  | some (nm, firstInnings, secondInnings) =>
      { name := jsTrim nm
        score := formatScore (firstInnings ++ " & " ++ secondInnings)
        isBatting := isBatting }
  | none =>
      match scoreMatch cleanStr with
      | some (nm, scoreStr) =>
          { name := jsTrim nm
            score := formatScore ((parseScore scoreStr).getD "")
            isBatting := isBatting }
      | none =>
          { name := cleanStr
            score := formatScore ((parseScore "").getD "")
            isBatting := isBatting }

/-- `item.match(/<open>([^<]+)<\/close>/)`: at the leftmost occurrence
of the open tag followed by a non-empty `<`-free run and the close tag,
capture the run. -/
def extractBetween (openTag closeTag : List Char) : List Char → Option (List Char)
  | [] => none
  | c :: rest =>
      if openTag.isPrefixOf (c :: rest) then
        let after := (c :: rest).drop openTag.length
        let content := after.takeWhile (fun ch => ch != '<')
        if !content.isEmpty && closeTag.isPrefixOf (after.drop content.length) then
          some content
        else extractBetween openTag closeTag rest
      else extractBetween openTag closeTag rest

/-- `<title>` capture. -/
def titleCapture (item : String) : Option String :=
  (extractBetween "<title>".data "</title>".data item.data).map String.mk

/-- `<guid>` capture. -/
def guidCapture (item : String) : Option String :=
  (extractBetween "<guid>".data "</guid>".data item.data).map String.mk

/-- `<pubDate>` capture. -/
def pubDateCapture (item : String) : Option String :=
  (extractBetween "<pubDate>".data "</pubDate>".data item.data).map String.mk

/-- `s.match(/match\/(\d+)\.html/)`: capture the digit run of the
leftmost `match/<digits>.html` occurrence. -/
def matchIdCaptureL : List Char → Option (List Char)
  | [] => none
  | c :: rest =>
      if "match/".data.isPrefixOf (c :: rest) then
        let after := (c :: rest).drop 6
        let ds := after.takeWhile Char.isDigit
        if !ds.isEmpty && ".html".data.isPrefixOf (after.drop ds.length) then some ds
        else matchIdCaptureL rest
      else matchIdCaptureL rest

/-- String wrapper for `matchIdCaptureL`. -/
def matchIdCapture (s : String) : Option String :=
  (matchIdCaptureL s.data).map String.mk

/-- `title.split(' v ')`: left-to-right, non-overlapping. -/
def splitVSep : List Char → List (List Char)
  | ' ' :: 'v' :: ' ' :: rest => [] :: splitVSep rest
  | c :: rest =>
      match splitVSep rest with
      | [] => [[c]]
      | p :: ps => (c :: p) :: ps
  | [] => [[]]

/-- `parseMatchFromRSSItem` (cricinfo.ts lines 126–249).  `new
Date(...).toISOString()` (with its swallowed failures) is the parameter
`parseDateISO`. -/
def parseMatchFromRSSItem (parseDateISO : String → Option String) (item : String)
    (matchStatus : MatchStatus) : Option SMatch :=
  let titleMatch := titleCapture item
  let guidMatch : Option String :=
    match guidCapture item with
    | some g => some g
    | none => matchIdCapture item
  match titleMatch, guidMatch with
  | some rawTitle, some guidUrl =>
    let title := decodeHtmlEntities rawTitle
    let matchId := (matchIdCapture guidUrl).getD guidUrl
    if matchId = "" then none
    else
      -- `title.split(' v ')`, require at least two sides
      match (splitVSep title.data).map String.mk with
      | s1 :: s2 :: _ =>
        let team1Raw := jsTrim s1
        let team2Raw := jsTrim s2
        let t1 := parseTeamString team1Raw
        let t2 := parseTeamString team2Raw
        let home : Team :=
          { id := matchId ++ "-1", name := t1.name, abbr := getAbbrev t1.name
            logo := getTeamFlag t1.name, score := some t1.score, turn := some t1.isBatting }
        let away : Team :=
          { id := matchId ++ "-2", name := t2.name, abbr := getAbbrev t2.name
            logo := getTeamFlag t2.name, score := some t2.score, turn := some t2.isBatting }
        -- ongoing with no parsed score on either side reclassifies as upcoming
        let status :=
          if matchStatus = MatchStatus.ongoing then
            if t1.score = "" ∧ t2.score = "" then MatchStatus.upcoming else matchStatus
          else matchStatus
        -- detail: abbreviation of the batting side, else the raw title
        let detail :=
          if t1.isBatting then getAbbrev t1.name ++ " is batting"
          else if t2.isBatting then getAbbrev t2.name ++ " is batting"
          else title
        let time :=
          match pubDateCapture item with
          | some d => parseDateISO d
          | none => none
        some { id := matchId, home := home, away := away, status := status
               statusDetail := detail, time := time, league := some "Cricket" }
      | _ => none
  | _, _ => none

/-! ## Concrete instances used by the claim theorems and witnesses -/

/-- All token counts of a bucket map are bounded by `burst`. -/
def BucketsBounded (burst : ℚ) (buckets : List (String × Bucket)) : Prop :=
  ∀ p ∈ buckets, p.2.tokens ≤ burst

/-- A match whose home team is the Mumbai Indians franchise. -/
def matchMumbai : SMatch :=
  { id := "m1"
    home := { id := "h1", name := "Mumbai Indians", abbr := "MI" }
    away := { id := "a1", name := "Chennai Super Kings", abbr := "CSK" }
    status := .ongoing, statusDetail := "" }

/-- A match whose home team is the Dallas Cowboys. -/
def matchDallas : SMatch :=
  { id := "m2"
    home := { id := "h2", name := "Dallas Cowboys", abbr := "DAL" }
    away := { id := "a2", name := "New York Giants", abbr := "NYG" }
    status := .done, statusDetail := "" }

/-- An accepted RSS item in which both sides carry the `*` marker. -/
def item0 : String :=
  "<title>India 10 * v Pakistan 20 *</title><guid>http://www.cricinfo.com/ci/engine/match/123.html</guid>"

/-- An accepted RSS item in which exactly the first side carries `*`. -/
def item1 : String :=
  "<title>India 10 * v Pakistan 20</title><guid>http://www.cricinfo.com/ci/engine/match/45.html</guid>"

/-- The match produced by parsing `item1`. -/
def m1val : SMatch :=
  { id := "45"
    home := { id := "45-1", name := "India", abbr := "IND"
              logo := some "https://flagcdn.com/w40/in.png", score := some "10"
              turn := some true }
    away := { id := "45-2", name := "Pakistan", abbr := "PAK"
              logo := some "https://flagcdn.com/w40/pk.png", score := some "20"
              turn := some false }
    status := .ongoing
    statusDetail := "IND is batting"
    time := none
    league := some "Cricket" }

/-- A limiter state with one bucket idle for over five minutes at the
next check's wall-clock time (301000 ms), with `lastCleanup` old enough
for the opportunistic sweep to fire. -/
def c5State : RateLimiterState :=
  { buckets := [("k", { tokens := 5, lastRefill := 0 })], lastCleanup := 0 }

/-- A one-team cache record written at time 0. -/
def cacheW : CachedTeams :=
  { teams := [{ id := 7, name := "India", code := "IND"
                image_path := "https://example.com/in.png", country_id := 1
                national_team := true, updated_at := "2024" }]
    cachedAt := 0 }

/-! # Theorems

Supporting lemmas first, then one theorem per claim (with its witness or
counterexample). -/

/-! ## String containment and whole-word scanning -/

theorem containsAux_iff (needle : List Char) :
    ∀ hay : List Char, containsAux needle hay = true ↔ needle <:+: hay := by
  intro hay
  induction hay with
  | nil =>
      simp only [containsAux, List.isEmpty_iff]
      constructor
      · rintro rfl; exact List.infix_rfl
      · intro h; exact List.eq_nil_of_infix_nil h
  | cons c rest ih =>
      simp only [containsAux, Bool.or_eq_true, List.isPrefixOf_iff_prefix, ih]
      constructor
      · rintro (h | h)
        · exact h.isInfix
        · exact List.infix_cons h
      · intro h
        rcases List.infix_cons_iff.mp h with h | h
        · exact Or.inl h
        · exact Or.inr h

theorem sContains_iff (hay needle : String) :
    sContains hay needle = true ↔ SubstrOf needle hay :=
  containsAux_iff needle.data hay.data

theorem lastOr_eq_getLast? (pre : List Char) : lastOr none pre = pre.getLast? := by
  suffices h : ∀ (prev : Option Char) (l : List Char),
      lastOr prev l = if l = [] then prev else l.getLast? by
    rw [h]
    cases pre with
    | nil => simp
    | cons c rest => simp
  intro prev l
  induction l generalizing prev with
  | nil => simp [lastOr]
  | cons c rest ih =>
      rw [lastOr, ih]
      cases rest with
      | nil => simp
      | cons a l' => simp [List.getLast?_cons_cons]

/-- Matching at the current position, in decomposition form. -/
theorem hereMatch_iff (needle hay : List Char) (prev : Option Char) :
    hereMatch needle hay prev = true ↔
      ∃ post, hay = needle ++ post ∧
        wordBoundary prev needle.head? = true ∧
        wordBoundary needle.getLast? post.head? = true := by
  unfold hereMatch
  constructor
  · intro h
    simp only [Bool.and_eq_true] at h
    obtain ⟨⟨hpre, hb1⟩, hb2⟩ := h
    rw [List.isPrefixOf_iff_prefix] at hpre
    obtain ⟨post, rfl⟩ := hpre
    refine ⟨post, rfl, hb1, ?_⟩
    rwa [List.getElem?_append_right (Nat.le_refl _), Nat.sub_self,
      ← List.head?_eq_getElem?] at hb2
  · rintro ⟨post, rfl, hb1, hb2⟩
    simp only [Bool.and_eq_true]
    refine ⟨⟨?_, hb1⟩, ?_⟩
    · rw [List.isPrefixOf_iff_prefix]; exact ⟨post, rfl⟩
    · rwa [List.getElem?_append_right (Nat.le_refl _), Nat.sub_self,
        ← List.head?_eq_getElem?]

/-- Scanner soundness and completeness against the declarative
decomposition, threading the previous character. -/
theorem scanMatch_iff (needle : List Char) :
    ∀ (prev : Option Char) (hay : List Char),
      scanMatch needle prev hay = true ↔
        ∃ pre post, hay = pre ++ needle ++ post ∧
          wordBoundary (lastOr prev pre) needle.head? = true ∧
          wordBoundary needle.getLast? post.head? = true := by
  intro prev hay
  induction hay generalizing prev with
  | nil =>
      simp only [scanMatch, hereMatch_iff]
      constructor
      · rintro ⟨post, heq, hb1, hb2⟩
        exact ⟨[], post, by simpa using heq, hb1, hb2⟩
      · rintro ⟨pre, post, heq, hb1, hb2⟩
        have hpre : pre = [] := by
          cases pre with
          | nil => rfl
          | cons a l => simp at heq
        subst hpre
        exact ⟨post, by simpa using heq, hb1, hb2⟩
  | cons c rest ih =>
      simp only [scanMatch, Bool.or_eq_true, hereMatch_iff, ih]
      constructor
      · rintro (⟨post, heq, hb1, hb2⟩ | ⟨pre, post, heq, hb1, hb2⟩)
        · exact ⟨[], post, by simpa using heq, hb1, hb2⟩
        · exact ⟨c :: pre, post, by simpa using heq, hb1, hb2⟩
      · rintro ⟨pre, post, heq, hb1, hb2⟩
        cases pre with
        | nil =>
            exact Or.inl ⟨post, by simpa using heq, hb1, hb2⟩
        | cons a l =>
            simp only [List.cons_append, List.cons.injEq] at heq
            obtain ⟨rfl, hrest⟩ := heq
            exact Or.inr ⟨l, post, hrest, hb1, hb2⟩

/-- The executable regex model agrees with the declarative whole-word
occurrence predicate. -/
theorem regexWholeWordTest_iff (search hay : String) :
    regexWholeWordTest search hay = true ↔ WholeWordOccurs search hay := by
  unfold regexWholeWordTest WholeWordOccurs
  rw [scanMatch_iff]
  constructor
  · rintro ⟨pre, post, h, hb1, hb2⟩
    exact ⟨pre, post, h, by rwa [lastOr_eq_getLast?] at hb1, hb2⟩
  · rintro ⟨pre, post, h, hb1, hb2⟩
    exact ⟨pre, post, h, by rwa [lastOr_eq_getLast?], hb2⟩

/-! ## Rate limiter lemmas -/

/-- `check` factors into the opportunistic sweep, the two user-agent
rules, and the token-bucket step, in that order. -/
theorem check_decompose (config : RateLimitConfig) (st : RateLimiterState)
    (now : ℚ) (ip : String) (userAgent : Option String) :
    check config st now ip userAgent =
      if uaIsMissing userAgent then
        ({ allowed := false, reason := some "Missing User-Agent header" }, sweepState st now)
      else if uaIsBlocked userAgent then
        ({ allowed := false, reason := some "Automated client blocked" }, sweepState st now)
      else tokenBucketStep config (sweepState st now) now ip := by
  cases userAgent with
  | none => rfl
  | some ua =>
      by_cases h1 : (jsTrim ua == "") = true
      · simp [check, uaIsMissing, sweepState, h1]
      · by_cases h2 : (blockedAgents.any fun agent => sContains (jsToLower ua) agent) = true
        · simp [check, uaIsMissing, uaIsBlocked, sweepState, h1, h2]
        · simp [check, uaIsMissing, uaIsBlocked, sweepState, tokenBucketStep, h1, h2]

theorem mem_cleanup {now : ℚ} {bs : List (String × Bucket)} {p : String × Bucket}
    (h : p ∈ cleanup now bs) : p ∈ bs :=
  (List.mem_filter.mp h).1

theorem mem_mapSet {bs : List (String × Bucket)} {k : String} {v : Bucket}
    {p : String × Bucket} (h : p ∈ mapSet bs k v) : p ∈ bs ∨ p = (k, v) := by
  unfold mapSet at h
  split at h
  · rcases List.mem_map.mp h with ⟨q, hq, hpq⟩
    by_cases hk : (q.1 == k) = true
    · right; rw [← hpq, if_pos hk]
    · left; rwa [← hpq, if_neg hk]
  · rcases List.mem_append.mp h with h | h
    · exact Or.inl h
    · right; simpa using h

theorem sweepState_bounded (config : RateLimitConfig) (st : RateLimiterState) (now : ℚ)
    (h : BucketsBounded config.burst st.buckets) :
    BucketsBounded config.burst (sweepState st now).buckets := by
  unfold sweepState
  split
  · exact fun p hp => h p (mem_cleanup hp)
  · exact h

theorem tokenBucketStep_bounded (config : RateLimitConfig) (st : RateLimiterState)
    (now : ℚ) (ip : String) (h : BucketsBounded config.burst st.buckets) :
    BucketsBounded config.burst (tokenBucketStep config st now ip).2.buckets := by
  intro p hp
  simp only [tokenBucketStep] at hp
  set bucket := (mapGet st.buckets ip).getD { tokens := config.burst, lastRefill := now } with hbucket
  set tokens := min config.burst
    (bucket.tokens + (now - bucket.lastRefill) / 1000 * (config.limit / config.interval)) with htokens
  have htle : tokens ≤ config.burst := min_le_left _ _
  split at hp
  · rcases mem_mapSet hp with hp | rfl
    · exact h p hp
    · simpa using le_trans (by linarith : tokens - 1 ≤ tokens) htle
  · rcases mem_mapSet hp with hp | rfl
    · exact h p hp
    · simpa using htle

theorem check_bounded (config : RateLimitConfig) (st : RateLimiterState) (now : ℚ)
    (ip : String) (ua : Option String) (h : BucketsBounded config.burst st.buckets) :
    BucketsBounded config.burst (check config st now ip ua).2.buckets := by
  rw [check_decompose]
  have hsw := sweepState_bounded config st now h
  split
  · exact hsw
  · split
    · exact hsw
    · exact tokenBucketStep_bounded config _ now ip hsw

/-! ## Claim theorems -/

/-- **C3.** For every configuration, every starting wall-clock time and
every sequence of `RateLimiter.check` calls (arbitrary elapsed times,
keys and user agents), the token count stored in every bucket never
exceeds the configured burst value. -/
theorem c3_tokens_never_exceed_burst (config : RateLimitConfig) (t0 : ℚ)
    (steps : List (ℚ × String × Option String)) :
    ∀ p ∈ (runChecks config (initState t0) steps).buckets,
      p.2.tokens ≤ config.burst := by
  suffices h : ∀ (st : RateLimiterState) (steps : List (ℚ × String × Option String)),
      BucketsBounded config.burst st.buckets →
        BucketsBounded config.burst (runChecks config st steps).buckets by
    exact h (initState t0) steps (by intro p hp; simp [initState] at hp)
  intro st steps
  induction steps generalizing st with
  | nil => exact fun hb => hb
  | cons s rest ih =>
      intro hb
      exact ih _ (check_bounded config st s.1 s.2.1 s.2.2 hb)

/-- Witness for **C3**: after one allowed check, the stored bucket holds
9 tokens, within the burst of 10. -/
theorem c3_tokens_never_exceed_burst_witness :
    ("1.2.3.4", Bucket.mk 9 0) ∈
        (runChecks rateLimiterConfig (initState 0) [(0, "1.2.3.4", some "Mozilla")]).buckets ∧
      (Bucket.mk 9 0).tokens ≤ rateLimiterConfig.burst := by
  have hrun : (runChecks rateLimiterConfig (initState 0) [(0, "1.2.3.4", some "Mozilla")]).buckets
      = [("1.2.3.4", Bucket.mk 9 0)] := by
    simp only [runChecks]
    rw [check_decompose]
    have h1 : uaIsMissing (some "Mozilla") = false := by decide
    have h2 : uaIsBlocked (some "Mozilla") = false := by decide
    rw [h1, h2]
    simp only [Bool.false_eq_true, if_false]
    simp only [tokenBucketStep, sweepState, initState, mapGet, mapSet]
    norm_num [rateLimiterConfig, mkRateLimitConfig, orDefault]
  have hmem : ("1.2.3.4", Bucket.mk 9 0) ∈
      (runChecks rateLimiterConfig (initState 0) [(0, "1.2.3.4", some "Mozilla")]).buckets := by
    rw [hrun]; exact List.mem_singleton.mpr rfl
  exact ⟨hmem,
    c3_tokens_never_exceed_burst rateLimiterConfig 0 [(0, "1.2.3.4", some "Mozilla")]
      ("1.2.3.4", Bucket.mk 9 0) hmem⟩

/-- **C4 counterexample.** A `RateLimiter` constructed without a config
argument does NOT use limit=60/burst=10: the constructor defaults are
limit=10 and burst=5. -/
theorem c4_counterexample_default_config :
    (mkRateLimitConfig {}).limit = 10 ∧ (mkRateLimitConfig {}).burst = 5 ∧
      ¬((mkRateLimitConfig {}).limit = 60 ∧ (mkRateLimitConfig {}).burst = 10 ∧
        (mkRateLimitConfig {}).interval = 60) := by
  refine ⟨rfl, rfl, ?_⟩
  intro h
  exact absurd h.1 (by decide)

/-- **C4 (amended).** A `RateLimiter` constructed without explicit
configuration uses limit=10, burst=5, interval=60; the module's shared
`rateLimiter` instance is constructed with limit=60, burst=10,
interval=60. -/
theorem c4_default_and_shared_config :
    mkRateLimitConfig {} = { limit := 10, burst := 5, interval := 60 } ∧
      rateLimiterConfig = { limit := 60, burst := 10, interval := 60 } := by
  constructor
  · rfl
  · show mkRateLimitConfig _ = _
    simp [mkRateLimitConfig, rateLimiterConfig, orDefault]

/-- **C5 counterexample.** With a missing user agent the decision is the
missing-user-agent rejection, but the bucket map for the checked key is
modified before that rejection: the opportunistic sweep (which runs
first) deletes the key's idle bucket. -/
theorem c5_counterexample_sweep_modifies_bucket :
    (check rateLimiterConfig c5State 301000 "k" none).1 =
        { allowed := false, reason := some "Missing User-Agent header" } ∧
      mapGet c5State.buckets "k" = some { tokens := 5, lastRefill := 0 } ∧
      mapGet (check rateLimiterConfig c5State 301000 "k" none).2.buckets "k" = none := by
  refine ⟨rfl, rfl, ?_⟩
  rw [check_decompose]
  simp only [uaIsMissing, if_true]
  norm_num [sweepState, cleanup, c5State, mapGet]

/-- **C5 (amended).** `check` returns a decision on every path and never
fails; the rules are applied in order — first the opportunistic sweep
(which can remove idle buckets, including the checked key's), then the
absent-or-blank user-agent rejection, then the blocklist rejection (both
without running the token-bucket step), and only otherwise the
refill-and-consume token-bucket step on the swept state. -/
theorem c5_check_rule_order (config : RateLimitConfig) (st : RateLimiterState)
    (now : ℚ) (ip : String) (ua : Option String) :
    ((check config st now ip ua).1 = { allowed := true, reason := none } ∨
      (check config st now ip ua).1 =
        { allowed := false, reason := some "Missing User-Agent header" } ∨
      (check config st now ip ua).1 =
        { allowed := false, reason := some "Automated client blocked" } ∨
      (check config st now ip ua).1 =
        { allowed := false, reason := some "Rate limit exceeded" }) ∧
    (uaIsMissing ua = true →
      check config st now ip ua =
        ({ allowed := false, reason := some "Missing User-Agent header" },
          sweepState st now)) ∧
    (uaIsMissing ua = false → uaIsBlocked ua = true →
      check config st now ip ua =
        ({ allowed := false, reason := some "Automated client blocked" },
          sweepState st now)) ∧
    (uaIsMissing ua = false → uaIsBlocked ua = false →
      check config st now ip ua = tokenBucketStep config (sweepState st now) now ip) := by
  rw [check_decompose]
  refine ⟨?_, ?_, ?_, ?_⟩
  · by_cases h1 : uaIsMissing ua = true
    · simp [h1]
    · by_cases h2 : uaIsBlocked ua = true
      · simp [h1, h2]
      · simp only [h1, h2, Bool.false_eq_true, if_false]
        simp only [tokenBucketStep]
        split
        · exact Or.inl rfl
        · exact Or.inr (Or.inr (Or.inr rfl))
  · intro h1; simp [h1]
  · intro h1 h2; simp [h1, h2]
  · intro h1 h2; simp [h1, h2]

/-- Witness for **C5 (amended)**: a blocklisted user agent (`curl`) is
rejected with the blocked reason and only the sweep touches the state. -/
theorem c5_check_rule_order_witness :
    uaIsMissing (some "curl") = false ∧ uaIsBlocked (some "curl") = true ∧
      check rateLimiterConfig (initState 0) 0 "ip" (some "curl") =
        ({ allowed := false, reason := some "Automated client blocked" },
          sweepState (initState 0) 0) :=
  ⟨by decide, by decide,
    (c5_check_rule_order rateLimiterConfig (initState 0) 0 "ip" (some "curl")).2.2.1
      (by decide) (by decide)⟩

/-- **C1.** With an API key and a cache store configured, when the
upstream paginated fetch fails: if any cache record exists (of any age),
`getCachedTeams` returns it normalized; only when no cache record exists
does it return the static fallback list. -/
theorem c1_stale_cache_beats_fallback (cache : Option CachedTeams) (now : ℚ)
    (league : String) :
    (∀ cd, cache = some cd →
      (getCachedTeams true true cache now (.error ()) league).result
        = .ok (normalizeTeams cd.teams league)) ∧
    (cache = none →
      (getCachedTeams true true cache now (.error ()) league).result
        = .ok (getFallbackTeams league)) := by
  constructor
  · rintro cd rfl
    by_cases hage : now - cd.cachedAt < CACHE_TTL_MS
    · simp [getCachedTeams, hage]
    · simp [getCachedTeams, hage]
  · rintro rfl
    simp [getCachedTeams]

/-- Witness for **C1**: a stale cache record (read far past the TTL with
a failing upstream) is still returned normalized; with no record, the
static fallback is returned. -/
theorem c1_stale_cache_beats_fallback_witness :
    (getCachedTeams true true (some cacheW) (10 * CACHE_TTL_MS) (.error ()) "international").result
        = .ok (normalizeTeams cacheW.teams "international") ∧
      (getCachedTeams true true none 0 (.error ()) "international").result
        = .ok (getFallbackTeams "international") :=
  ⟨(c1_stale_cache_beats_fallback (some cacheW) (10 * CACHE_TTL_MS) "international").1 cacheW rfl,
    (c1_stale_cache_beats_fallback none 0 "international").2 rfl⟩

/-- **C2.** With an API key and a cache store configured, whenever a
cache record is present and `now - cachedAt` is strictly below the 7-day
TTL, `getCachedTeams` returns the cached record normalized, performs
zero upstream calls and leaves the cache unchanged — for every possible
upstream outcome. -/
theorem c2_fresh_cache_no_network (cd : CachedTeams) (now : ℚ)
    (fetchResult : Except Unit (List SportsMonkTeam)) (league : String)
    (hfresh : now - cd.cachedAt < CACHE_TTL_MS) :
    getCachedTeams true true (some cd) now fetchResult league =
      { result := .ok (normalizeTeams cd.teams league)
        upstreamCalls := 0
        cacheAfter := some cd } := by
  simp [getCachedTeams, hfresh]

/-- Witness for **C2**: a record cached at time 0 and read at 1000 ms
(well within the TTL) with a failing upstream. -/
theorem c2_fresh_cache_no_network_witness :
    ((1000 : ℚ) - cacheW.cachedAt < CACHE_TTL_MS) ∧
      getCachedTeams true true (some cacheW) 1000 (.error ()) "international" =
        { result := .ok (normalizeTeams cacheW.teams "international")
          upstreamCalls := 0
          cacheAfter := some cacheW } :=
  ⟨by norm_num [cacheW, CACHE_TTL_MS],
    c2_fresh_cache_no_network cacheW 1000 (.error ()) "international"
      (by norm_num [cacheW, CACHE_TTL_MS])⟩

/-- **C7.** In the scoreboard handler with a team filter supplied: for
the cricket (feed-based) source, an empty filter result on a non-empty
match list degrades to the singleton of the first unfiltered match (and
a non-empty filter result is returned as-is); for non-cricket
(structured-API) sources the filtered list is returned as-is. -/
theorem c7_cricket_filter_degrade (sportSlug : String) (ms : List SMatch)
    (team : String) (hteam : team ≠ "") :
    (sportSlug = "cricket" → filterByTeam ms team = [] →
      ∀ m rest, ms = m :: rest → scoreboardTeamStep sportSlug ms team = [m]) ∧
    (sportSlug = "cricket" → filterByTeam ms team ≠ [] →
      scoreboardTeamStep sportSlug ms team = filterByTeam ms team) ∧
    (sportSlug ≠ "cricket" →
      scoreboardTeamStep sportSlug ms team = filterByTeam ms team) := by
  refine ⟨?_, ?_, ?_⟩
  · rintro rfl hf m rest rfl
    simp [scoreboardTeamStep, hteam, hf]
  · intro hcr hf
    have hne : (filterByTeam ms team).isEmpty = false := by
      simpa [List.isEmpty_iff] using hf
    simp [scoreboardTeamStep, hteam, hne]
  · intro hncr
    have hne : (sportSlug == "cricket") = false := by simpa using hncr
    simp [scoreboardTeamStep, hteam, hne]

/-- Witness for **C7**: a cricket list whose single match does not pass
the filter `"india"` degrades to that first match. -/
theorem c7_cricket_filter_degrade_witness :
    ("india" : String) ≠ "" ∧ filterByTeam [matchMumbai] "india" = [] ∧
      scoreboardTeamStep "cricket" [matchMumbai] "india" = [matchMumbai] :=
  ⟨by decide, by decide,
    (c7_cricket_filter_degrade "cricket" [matchMumbai] "india" (by decide)).1
      rfl (by decide) matchMumbai [] rfl⟩

/-- **C10.** `filterByTeam` is the identity whenever every
comma-separated part of the search string trims to the empty string
(e.g. `""`, `"  "`, `", ,"`). -/
theorem c10_blank_filter_is_identity (ms : List SMatch) (s : String)
    (h : ∀ t ∈ (splitCharSep ',' s.data).map String.mk, jsTrim t = "") :
    filterByTeam ms s = ms := by
  have htok : filterTokens s = [] := by
    unfold filterTokens
    rw [List.filter_eq_nil_iff]
    intro a ha
    rcases List.mem_map.mp ha with ⟨t, ht, rfl⟩
    rw [h t ht]
    decide
  unfold filterByTeam
  rw [htok]
  simp

/-- Witness for **C10**: the search string `", ,"` splits into blank
tokens only and keeps the list unchanged. -/
theorem c10_blank_filter_is_identity_witness :
    (∀ t ∈ (splitCharSep ',' (", ," : String).data).map String.mk, jsTrim t = "") ∧
      filterByTeam [matchMumbai] ", ," = [matchMumbai] :=
  ⟨by decide, c10_blank_filter_is_identity [matchMumbai] ", ," (by decide)⟩

/-- **C6.** With a non-empty token list, `filterByTeam` keeps exactly
the matches for which some comma-separated, trimmed, non-empty token
occurs as a whole word (case-insensitively) in the home name, home
abbreviation, away name or away abbreviation; in particular `"india"`
does not match a team named `"Mumbai Indians"`, and `"dallas"` matches a
team named `"Dallas Cowboys"`. -/
theorem c6_filter_whole_word :
    (∀ (ms : List SMatch) (s : String), filterTokens s ≠ [] →
      filterByTeam ms s = ms.filter (teamMatchPred (filterTokens s))) ∧
    (∀ (teams : List String) (m : SMatch),
      teamMatchPred teams m = true ↔
        ∃ t ∈ teams, WholeWordOccurs t m.home.name ∨ WholeWordOccurs t m.home.abbr ∨
          WholeWordOccurs t m.away.name ∨ WholeWordOccurs t m.away.abbr) ∧
    filterByTeam [matchMumbai] "india" = [] ∧
    filterByTeam [matchDallas] "dallas" = [matchDallas] := by
  refine ⟨?_, ?_, by decide, by decide⟩
  · intro ms s h
    unfold filterByTeam
    rw [if_neg (by simpa [List.length_eq_zero] using h)]
  · intro teams m
    unfold teamMatchPred
    simp [List.any_eq_true, Bool.or_eq_true, regexWholeWordTest_iff, or_assoc]

/-- Witness for **C6**: the token list of `"dallas"` is non-empty and
the filter equals the characterized `List.filter`. -/
theorem c6_filter_whole_word_witness :
    filterTokens "dallas" ≠ [] ∧
      filterByTeam [matchDallas] "dallas" =
        List.filter (teamMatchPred (filterTokens "dallas")) [matchDallas] :=
  ⟨by decide, c6_filter_whole_word.1 [matchDallas] "dallas" (by decide)⟩

/-- **C8.** `mapEspnStatus` is case-insensitive substring classification
with done-before-ongoing precedence: a lowercased input containing any
of "final"/"end"/"ft"/"post" is done; else one containing any of
"progress"/"live"/"halftime"/"in " is ongoing; else upcoming — and the
spec's classifier table holds. -/
theorem c8_status_classifier :
    (∀ s : String, mapEspnStatus s = .done ↔
      (SubstrOf "final" (jsToLower s) ∨ SubstrOf "end" (jsToLower s) ∨
        SubstrOf "ft" (jsToLower s) ∨ SubstrOf "post" (jsToLower s))) ∧
    (∀ s : String, mapEspnStatus s = .ongoing ↔
      (¬(SubstrOf "final" (jsToLower s) ∨ SubstrOf "end" (jsToLower s) ∨
          SubstrOf "ft" (jsToLower s) ∨ SubstrOf "post" (jsToLower s)) ∧
        (SubstrOf "progress" (jsToLower s) ∨ SubstrOf "live" (jsToLower s) ∨
          SubstrOf "halftime" (jsToLower s) ∨ SubstrOf "in " (jsToLower s)))) ∧
    (∀ s : String, mapEspnStatus s = .upcoming ↔
      (¬(SubstrOf "final" (jsToLower s) ∨ SubstrOf "end" (jsToLower s) ∨
          SubstrOf "ft" (jsToLower s) ∨ SubstrOf "post" (jsToLower s)) ∧
        ¬(SubstrOf "progress" (jsToLower s) ∨ SubstrOf "live" (jsToLower s) ∨
          SubstrOf "halftime" (jsToLower s) ∨ SubstrOf "in " (jsToLower s)))) ∧
    mapEspnStatus "STATUS_FINAL" = .done ∧ mapEspnStatus "Final" = .done ∧
    mapEspnStatus "post" = .done ∧ mapEspnStatus "in progress" = .ongoing ∧
    mapEspnStatus "live" = .ongoing ∧ mapEspnStatus "scheduled" = .upcoming ∧
    mapEspnStatus "pre" = .upcoming := by
  have hdone : ∀ s : String, doneCond (jsToLower s) = true ↔
      (SubstrOf "final" (jsToLower s) ∨ SubstrOf "end" (jsToLower s) ∨
        SubstrOf "ft" (jsToLower s) ∨ SubstrOf "post" (jsToLower s)) := by
    intro s; simp [doneCond, Bool.or_eq_true, sContains_iff, or_assoc]
  have hong : ∀ s : String, ongoingCond (jsToLower s) = true ↔
      (SubstrOf "progress" (jsToLower s) ∨ SubstrOf "live" (jsToLower s) ∨
        SubstrOf "halftime" (jsToLower s) ∨ SubstrOf "in " (jsToLower s)) := by
    intro s; simp [ongoingCond, Bool.or_eq_true, sContains_iff, or_assoc]
  refine ⟨?_, ?_, ?_, by decide, by decide, by decide, by decide, by decide,
    by decide, by decide⟩
  · intro s
    rw [← hdone s]
    unfold mapEspnStatus
    by_cases h1 : doneCond (jsToLower s) = true <;>
      by_cases h2 : ongoingCond (jsToLower s) = true <;> simp [h1, h2]
  · intro s
    rw [← hdone s, ← hong s]
    unfold mapEspnStatus
    by_cases h1 : doneCond (jsToLower s) = true <;>
      by_cases h2 : ongoingCond (jsToLower s) = true <;> simp [h1, h2]
  · intro s
    rw [← hdone s, ← hong s]
    unfold mapEspnStatus
    by_cases h1 : doneCond (jsToLower s) = true <;>
      by_cases h2 : ongoingCond (jsToLower s) = true <;> simp [h1, h2]

/-- **C9 counterexample.** An accepted RSS item in which BOTH sides
carry the activity marker: the produced `statusDetail` is the home
abbreviation followed by " is batting", not the raw decoded title as the
claim requires for that case. -/
theorem c9_counterexample_both_batting :
    (parseMatchFromRSSItem (fun _ => none) item0 MatchStatus.ongoing).map
        (fun m => (m.home.turn, m.away.turn, m.statusDetail)) =
      some (some true, some true, "IND is batting") ∧
    titleCapture item0 = some "India 10 * v Pakistan 20 *" ∧
    decodeHtmlEntities "India 10 * v Pakistan 20 *" = "India 10 * v Pakistan 20 *" ∧
    ("IND is batting" : String) ≠ "India 10 * v Pakistan 20 *" :=
  ⟨by decide, by decide, by decide, by decide⟩

/-- **C9 (amended).** For every RSS item the parser accepts: if the home
side carries the activity marker, `statusDetail` is the home
abbreviation followed by " is batting"; otherwise, if the away side
carries it, the away abbreviation followed by " is batting"; otherwise
the raw decoded title. -/
theorem c9_detail (parseDateISO : String → Option String) (item : String)
    (st : MatchStatus) (m : SMatch)
    (h : parseMatchFromRSSItem parseDateISO item st = some m) :
    (m.home.turn = some true → m.statusDetail = m.home.abbr ++ " is batting") ∧
    (m.home.turn = some false → m.away.turn = some true →
      m.statusDetail = m.away.abbr ++ " is batting") ∧
    (m.home.turn = some false → m.away.turn = some false →
      ∃ rawTitle, titleCapture item = some rawTitle ∧
        m.statusDetail = decodeHtmlEntities rawTitle) := by
  simp only [parseMatchFromRSSItem] at h
  split at h
  case _ rawTitle guidUrl htitle hguid =>
    split at h
    · exact absurd h (by simp)
    · split at h
      case _ s1 s2 srest hsides =>
        rw [Option.some.injEq] at h
        subst h
        refine ⟨?_, ?_, ?_⟩
        · intro hturn
          simp only [Option.some.injEq] at hturn
          simp [hturn]
        · intro h1 h2
          simp only [Option.some.injEq] at h1 h2
          simp [h1, h2]
        · intro h1 h2
          simp only [Option.some.injEq] at h1 h2
          exact ⟨rawTitle, htitle, by simp [h1, h2]⟩
      case _ hne => exact absurd h (by simp)
  case _ ht hg => exact absurd h (by simp)

/-- Witness for **C9 (amended)**: an item with exactly the home side
marked active produces "<home abbrev> is batting". -/
theorem c9_detail_witness :
    parseMatchFromRSSItem (fun _ => none) item1 MatchStatus.ongoing = some m1val ∧
      m1val.home.turn = some true ∧
      m1val.statusDetail = m1val.home.abbr ++ " is batting" :=
  ⟨by decide, by decide,
    (c9_detail (fun _ => none) item1 MatchStatus.ongoing m1val (by decide)).1 (by decide)⟩

end KiwiSports
